import Mathlib

/-!
Verification development for `trilat.py` (BrianSanderson/trilateration).

The script reads comma-separated rows
`name, dist_A(m), dist_B(m), dist_C(m), lon_A, lat_A, lon_B, lat_B, lon_C, lat_C`,
trilaterates each row over an ECEF sphere of radius 6371 km, and writes a
tab-separated file with header row `name long lat` followed by one data row
per input row.

Embedding notes.
* Double-precision values are modelled as exact reals extended with signed
  infinity and NaN (`FVal`).  Rounding is not modelled; special-value
  propagation (the subject of the error-handling claims) is modelled exactly.
* numpy scalar arithmetic (the divisions by `2*d`, `2*j`, `j` in lines 83-94,
  and all array arithmetic) follows IEEE semantics: division by zero gives
  ±Inf or NaN, never an exception.
* `math.sqrt` raises on negative (finite or -Inf) arguments; the script wraps
  it in `try/except` (lines 97-100), so the height `z` degrades to NaN.
* `math.asin` raises `ValueError` on finite arguments outside [-1, 1] and on
  ±Inf, returns NaN on NaN; the call at line 107 is NOT guarded.
* Python-level exceptions (IndexError from `content[k]`, ValueError from
  `float(...)` and from `math.asin`) are modelled with `Except Unit`.
-/

noncomputable section

/-- An IEEE-style double value: an exact real, a signed infinity
(`inf true` = +∞, `inf false` = -∞), or NaN. -/
inductive FVal where
  | num : ℝ → FVal
  | inf : Bool → FVal
  | nan : FVal

/-- Whether a value is NaN. -/
def FVal.isNaN : FVal → Bool
  | .nan => true
  | _ => false

/-- IEEE addition on `FVal` (exact in the finite case). -/
def addF : FVal → FVal → FVal
  | .nan, _ => .nan
  | _, .nan => .nan
  | .num a, .num b => .num (a + b)
  | .num _, .inf s => .inf s
  | .inf s, .num _ => .inf s
  | .inf s, .inf t => if s = t then .inf s else .nan

/-- IEEE subtraction on `FVal`. -/
def subF : FVal → FVal → FVal
  | .nan, _ => .nan
  | _, .nan => .nan
  | .num a, .num b => .num (a - b)
  | .num _, .inf s => .inf (!s)
  | .inf s, .num _ => .inf s
  | .inf s, .inf t => if s = t then .nan else .inf s

/-- IEEE multiplication on `FVal`; `0 * ∞ = NaN`. -/
def mulF : FVal → FVal → FVal
  | .nan, _ => .nan
  | _, .nan => .nan
  | .num a, .num b => .num (a * b)
  | .num a, .inf s => if a = 0 then .nan else if 0 < a then .inf s else .inf (!s)
  | .inf s, .num a => if a = 0 then .nan else if 0 < a then .inf s else .inf (!s)
  | .inf s, .inf t => .inf (s == t)

/-- IEEE division on `FVal` (numpy semantics: a zero divisor yields ±Inf or
NaN plus a runtime warning, not an exception; the zero produced by the exact
model is unsigned, i.e. +0). -/
def divF : FVal → FVal → FVal
  | .nan, _ => .nan
  | _, .nan => .nan
  | .num a, .num b =>
      if b = 0 then (if a = 0 then .nan else if 0 < a then .inf true else .inf false)
      else .num (a / b)
  | .num _, .inf _ => .num 0
  | .inf s, .num b => if 0 ≤ b then .inf s else .inf (!s)
  | .inf _, .inf _ => .nan

/-- Source `math.pow(v, 2)`: squaring, with `(±∞)² = +∞` and `NaN² = NaN`. -/
def powF : FVal → FVal
  | .nan => .nan
  | .num a => .num (a ^ 2)
  | .inf _ => .inf true

/-- Source `math.sqrt`: raises `ValueError` on negative finite arguments and on -∞,
returns NaN on NaN. -/
def sqrtMath : FVal → Except Unit FVal
  | .nan => .ok .nan
  | .num a => if 0 ≤ a then .ok (.num (Real.sqrt a)) else .error ()
  | .inf true => .ok (.inf true)
  | .inf false => .error ()

/-- Source `numpy.sqrt`: NaN (with a warning) on negative arguments, never raises.
Used inside `numpy.linalg.norm`, whose argument is a sum of squares. -/
def sqrtNP : FVal → FVal
  | .nan => .nan
  | .num a => if 0 ≤ a then .num (Real.sqrt a) else .nan
  | .inf true => .inf true
  | .inf false => .nan

/-- Source `math.asin`: raises `ValueError` on finite arguments outside [-1, 1] and
on ±∞; returns NaN on NaN.  (This is the unguarded call at line 107.) -/
def asinF : FVal → Except Unit FVal
  | .nan => .ok .nan
  | .num a => if -1 ≤ a ∧ a ≤ 1 then .ok (.num (Real.arcsin a)) else .error ()
  | .inf _ => .error ()

/-- Two-argument arctangent on exact reals (the finite case of `math.atan2`;
zeroes are unsigned in the exact model, and `atan2 0 0 = 0` as in Python). -/
def atan2R (b a : ℝ) : ℝ :=
  if 0 < a then Real.arctan (b / a)
  else if a < 0 then
    (if 0 ≤ b then Real.arctan (b / a) + Real.pi else Real.arctan (b / a) - Real.pi)
  else if 0 < b then Real.pi / 2
  else if b < 0 then -(Real.pi / 2)
  else 0

/-- Source `math.atan2`: total, NaN-propagating, finite answers on infinities. -/
def atan2F : FVal → FVal → FVal
  | .nan, _ => .nan
  | _, .nan => .nan
  | .num b, .num a => .num (atan2R b a)
  | .num b, .inf s => if s then .num 0 else (if 0 ≤ b then .num Real.pi else .num (-Real.pi))
  | .inf s, .num _ => if s then .num (Real.pi / 2) else .num (-(Real.pi / 2))
  | .inf s, .inf t =>
      if s then (if t then .num (Real.pi / 4) else .num (3 * Real.pi / 4))
      else (if t then .num (-(Real.pi / 4)) else .num (-(3 * Real.pi / 4)))

/-- Source `math.radians`: degrees to radians. -/
def radiansR (deg : ℝ) : ℝ := deg * Real.pi / 180

/-- Source `math.degrees` on exact reals: radians to degrees. -/
def degreesR (rad : ℝ) : ℝ := rad * 180 / Real.pi

/-- Source `math.degrees` lifted to `FVal` (NaN- and Inf-preserving). -/
def degreesF : FVal → FVal
  | .nan => .nan
  | .inf s => .inf s
  | .num a => .num (degreesR a)

/-- A real 3-vector (the ECEF positions `P1`, `P2`, `P3` are always finite). -/
structure Vec3 where
  x : ℝ
  y : ℝ
  z : ℝ

/-- Componentwise difference of real vectors. -/
def subV (u v : Vec3) : Vec3 := ⟨u.x - v.x, u.y - v.y, u.z - v.z⟩

/-- Source `numpy.linalg.norm` of a real vector. -/
def normV (v : Vec3) : ℝ := Real.sqrt (v.x ^ 2 + v.y ^ 2 + v.z ^ 2)

/-- A 3-vector of `FVal`s (numpy arrays downstream of the basis division). -/
structure FVec3 where
  x : FVal
  y : FVal
  z : FVal

/-- Inject a real vector into `FVec3`. -/
def toFV (v : Vec3) : FVec3 := ⟨.num v.x, .num v.y, .num v.z⟩

/-- Componentwise `FVal` addition (numpy array addition). -/
def addFV (u v : FVec3) : FVec3 := ⟨addF u.x v.x, addF u.y v.y, addF u.z v.z⟩

/-- Componentwise `FVal` subtraction (numpy array subtraction). -/
def subFV (u v : FVec3) : FVec3 := ⟨subF u.x v.x, subF u.y v.y, subF u.z v.z⟩

/-- Scalar times vector, componentwise (numpy broadcasting `s * v`). -/
def smulFV (s : FVal) (v : FVec3) : FVec3 := ⟨mulF s v.x, mulF s v.y, mulF s v.z⟩

/-- Vector divided by a scalar, componentwise (numpy broadcasting `v / s`). -/
def divFVs (v : FVec3) (s : FVal) : FVec3 := ⟨divF v.x s, divF v.y s, divF v.z s⟩

/-- Source `numpy.dot` on `FVec3`. -/
def dotF (u v : FVec3) : FVal :=
  addF (addF (mulF u.x v.x) (mulF u.y v.y)) (mulF u.z v.z)

/-- Source `numpy.cross` on `FVec3`. -/
def crossF (u v : FVec3) : FVec3 :=
  ⟨subF (mulF u.y v.z) (mulF u.z v.y),
   subF (mulF u.z v.x) (mulF u.x v.z),
   subF (mulF u.x v.y) (mulF u.y v.x)⟩

/-- Source `numpy.linalg.norm` on an `FVec3` (NaN-propagating). -/
def normFV (v : FVec3) : FVal :=
  sqrtNP (addF (addF (mulF v.x v.x) (mulF v.y v.y)) (mulF v.z v.z))

/-- Source `earthR = 6371` (line 39): spherical-Earth radius in kilometres. -/
def earthR : ℝ := 6371

/-- The nine numeric fields of one parsed input row, named after the column
layout documented in the script's docstring (`dist*` in metres, coordinates
in decimal degrees).  `dist1` is column 1, ..., `lat3` is column 9. -/
structure NumRow where
  dist1 : ℝ
  dist2 : ℝ
  dist3 : ℝ
  long1 : ℝ
  lat1 : ℝ
  long2 : ℝ
  lat2 : ℝ
  long3 : ℝ
  lat3 : ℝ

/-- Source `DistA = float(content[1]) / 1000` (line 40). -/
def DistA (r : NumRow) : ℝ := r.dist1 / 1000

/-- Source `DistB = float(content[2]) / 1000` (line 41). -/
def DistB (r : NumRow) : ℝ := r.dist2 / 1000

/-- Source `DistC = float(content[3]) / 1000` (line 42). -/
def DistC (r : NumRow) : ℝ := r.dist3 / 1000

/-- Source `xA` (lines 57-58). -/
def xA (r : NumRow) : ℝ :=
  earthR * (Real.cos (radiansR r.lat1) * Real.cos (radiansR r.long1))

/-- Source `yA` (lines 59-60). -/
def yA (r : NumRow) : ℝ :=
  earthR * (Real.cos (radiansR r.lat1) * Real.sin (radiansR r.long1))

/-- Source `zA` (line 61). -/
def zA (r : NumRow) : ℝ := earthR * Real.sin (radiansR r.lat1)

/-- Source `xB` (lines 63-64). -/
def xB (r : NumRow) : ℝ :=
  earthR * (Real.cos (radiansR r.lat2) * Real.cos (radiansR r.long2))

/-- Source `yB` (lines 65-66). -/
def yB (r : NumRow) : ℝ :=
  earthR * (Real.cos (radiansR r.lat2) * Real.sin (radiansR r.long2))

/-- Source `zB` (line 67). -/
def zB (r : NumRow) : ℝ := earthR * Real.sin (radiansR r.lat2)

/-- Source `xC` (lines 69-70). -/
def xC (r : NumRow) : ℝ :=
  earthR * (Real.cos (radiansR r.lat3) * Real.cos (radiansR r.long3))

/-- Source `yC` (lines 71-72). -/
def yC (r : NumRow) : ℝ :=
  earthR * (Real.cos (radiansR r.lat3) * Real.sin (radiansR r.long3))

/-- Source `zC` (line 73). -/
def zC (r : NumRow) : ℝ := earthR * Real.sin (radiansR r.lat3)

/-- Source `P1 = numpy.array([xA, yA, zA])` (line 75). -/
def P1 (r : NumRow) : Vec3 := ⟨xA r, yA r, zA r⟩

/-- Source `P2 = numpy.array([xB, yB, zB])` (line 76). -/
def P2 (r : NumRow) : Vec3 := ⟨xB r, yB r, zB r⟩

/-- Source `P3 = numpy.array([xC, yC, zC])` (line 77). -/
def P3 (r : NumRow) : Vec3 := ⟨xC r, yC r, zC r⟩

/-- Source `d = numpy.linalg.norm(P2 - P1)` (line 87; the same real number is the
denominator of line 83). -/
def dV (r : NumRow) : ℝ := normV (subV (P2 r) (P1 r))

/-- Source `ex = (P2 - P1)/(numpy.linalg.norm(P2 - P1))` (line 83). -/
def exV (r : NumRow) : FVec3 := divFVs (toFV (subV (P2 r) (P1 r))) (.num (dV r))

/-- Source `i = numpy.dot(ex, P3 - P1)` (line 84). -/
def iV (r : NumRow) : FVal := dotF (exV r) (toFV (subV (P3 r) (P1 r)))

/-- The vector `P3 - P1 - i*ex` appearing twice in line 85. -/
def eyNumV (r : NumRow) : FVec3 :=
  subFV (toFV (subV (P3 r) (P1 r))) (smulFV (iV r) (exV r))

/-- Source `ey = (P3 - P1 - i*ex)/(numpy.linalg.norm(P3 - P1 - i*ex))` (line 85). -/
def eyV (r : NumRow) : FVec3 := divFVs (eyNumV r) (normFV (eyNumV r))

/-- Source `ez = numpy.cross(ex, ey)` (line 86). -/
def ezV (r : NumRow) : FVec3 := crossF (exV r) (eyV r)

/-- Source `j = numpy.dot(ey, P3 - P1)` (line 88). -/
def jV (r : NumRow) : FVal := dotF (eyV r) (toFV (subV (P3 r) (P1 r)))

/-- Source `x = (math.pow(DistA,2) - math.pow(DistB,2) + math.pow(d,2))/(2*d)`
(line 92). -/
def xV (r : NumRow) : FVal :=
  divF (addF (subF (powF (.num (DistA r))) (powF (.num (DistB r))))
             (powF (.num (dV r))))
       (mulF (.num 2) (.num (dV r)))

/-- Source `y = ((math.pow(DistA,2) - math.pow(DistC,2) + math.pow(i,2)
+ math.pow(j,2))/(2*j)) - ((i/j)*x)` (lines 93-94). -/
def yV (r : NumRow) : FVal :=
  subF (divF (addF (addF (subF (powF (.num (DistA r))) (powF (.num (DistC r))))
                         (powF (iV r)))
                   (powF (jV r)))
             (mulF (.num 2) (jV r)))
       (mulF (divF (iV r) (jV r)) (xV r))

/-- The height discriminant
`math.pow(DistA,2) - math.pow(x,2) - math.pow(y,2)` (line 98). -/
def discV (r : NumRow) : FVal :=
  subF (subF (powF (.num (DistA r))) (powF (xV r))) (powF (yV r))

/-- Source `try: z = math.sqrt(...) except: z = float('nan')` (lines 97-100). -/
def zV (r : NumRow) : FVal :=
  match sqrtMath (discV r) with
  | .ok v => v
  | .error _ => .nan

/-- Source `triPt = P1 + x*ex + y*ey + z*ez` (line 103). -/
def triPt (r : NumRow) : FVec3 :=
  addFV (addFV (addFV (toFV (P1 r)) (smulFV (xV r) (exV r)))
               (smulFV (yV r) (eyV r)))
        (smulFV (zV r) (ezV r))

/-- The argument `triPt[2] / earthR` of the `asin` at line 107. -/
def asinArg (r : NumRow) : FVal := divF (triPt r).z (.num earthR)

/-- Source `lat = math.degrees(math.asin(triPt[2] / earthR))` (line 107): the only
unguarded raising call of the numeric pipeline. -/
def latE (r : NumRow) : Except Unit FVal := (asinF (asinArg r)).map degreesF

/-- Source `lon = math.degrees(math.atan2(triPt[1], triPt[0]))` (line 108): total. -/
def lonF (r : NumRow) : FVal := degreesF (atan2F (triPt r).y (triPt r).x)

/-- The numeric computation of one loop iteration (lines 39-108): the
longitude/latitude pair, or a raised `ValueError` from `asin`. -/
def processNum (r : NumRow) : Except Unit (FVal × FVal) :=
  (latE r).map (fun lt => (lonF r, lt))

/-- One raw comma-separated field: its text and, when the text parses as a
float, its numeric value (`float(text)` raises otherwise). -/
structure RawField where
  text : String
  val : Option ℝ

/-- One raw input line after `line.strip().split(',')` (line 37). -/
structure RawRow where
  fields : List RawField

/-- Source `content[k]`: raises IndexError past the end (modelled as `.error`). -/
def getCol (rr : RawRow) (k : ℕ) : Except Unit RawField :=
  match rr.fields.get? k with
  | some f => .ok f
  | none => .error ()

/-- Source `float(content[k])`: IndexError or ValueError are both fatal. -/
def colFloat (rr : RawRow) (k : ℕ) : Except Unit ℝ :=
  match rr.fields.get? k with
  | some f =>
      match f.val with
      | some v => .ok v
      | none => .error ()
  | none => .error ()

/-- Source `content[0]`'s text, used as the output row name (line 111); defaults to
the empty string on an empty field list (unreachable after a parse). -/
def rowName (rr : RawRow) : String :=
  match rr.fields with
  | [] => (r"")
  | f :: _ => f.text

/-- Lines 40-48: parse the nine numeric columns in the source's access order
(distances from columns 1-3, then latitude before longitude for each of the
three reference points: columns 5,4,7,6,9,8). -/
def parseNums (rr : RawRow) : Except Unit NumRow :=
  match colFloat rr 1 with
  | .error e => .error e
  | .ok d1 =>
  match colFloat rr 2 with
  | .error e => .error e
  | .ok d2 =>
  match colFloat rr 3 with
  | .error e => .error e
  | .ok d3 =>
  match colFloat rr 5 with
  | .error e => .error e
  | .ok la1 =>
  match colFloat rr 4 with
  | .error e => .error e
  | .ok lo1 =>
  match colFloat rr 7 with
  | .error e => .error e
  | .ok la2 =>
  match colFloat rr 6 with
  | .error e => .error e
  | .ok lo2 =>
  match colFloat rr 9 with
  | .error e => .error e
  | .ok la3 =>
  match colFloat rr 8 with
  | .error e => .error e
  | .ok lo3 => .ok ⟨d1, d2, d3, lo1, la1, lo2, la2, lo3, la3⟩

/-- One emitted output line: the header `['name','long','lat']` written at
line 33, or a data line `[content[0], lon, lat]` written at line 112. -/
inductive OutLine where
  | header : OutLine
  | data : String → FVal → FVal → OutLine

/-- One full loop iteration (lines 36-112) for one raw row: parse the numeric
columns, run the trilateration, read `content[0]`, and emit the output line.
Any uncaught exception (IndexError, ValueError from `float` or from `asin`)
aborts the batch. -/
def processRaw (rr : RawRow) : Except Unit OutLine :=
  match parseNums rr with
  | .error e => .error e
  | .ok nr =>
  match latE nr with
  | .error e => .error e
  | .ok lt =>
  match getCol rr 0 with
  | .error e => .error e
  | .ok c0 => .ok (OutLine.data c0.text (lonF nr) lt)

/-- The data lines written before the loop either finishes or dies on an
uncaught exception. -/
def runRows : List RawRow → List OutLine
  | [] => []
  | r :: rs =>
      match processRaw r with
      | .ok o => o :: runRows rs
      | .error _ => []

/-- The whole output file: the header row is written (line 33) before the
input loop starts (lines 35-36), so it precedes all data rows and survives
any later abort. -/
def mainList (rows : List RawRow) : List OutLine :=
  OutLine.header :: runRows rows

/-- Modelled from the spec: the geodetic-to-ECEF conversion of §4.1 step 2,
`x = R·cos(lat)·cos(lon)`, `y = R·cos(lat)·sin(lon)`, `z = R·sin(lat)`,
for comparison with the code's `xA ... zC`. -/
def specToECEF (lon lat : ℝ) : Vec3 :=
  ⟨earthR * (Real.cos (radiansR lat) * Real.cos (radiansR lon)),
   earthR * (Real.cos (radiansR lat) * Real.sin (radiansR lon)),
   earthR * Real.sin (radiansR lat)⟩

/-- Modelled from the spec: the Trilaterator core of §4.1 steps 3-6, taking
distances already converted to kilometres ("caller converts to kilometers
before use — internal unit is kilometers") and the three ECEF reference
points, for comparison with the inlined per-row computation. -/
def trilatCore (dA dB dC : ℝ) (q1 q2 q3 : Vec3) : Except Unit (FVal × FVal) :=
  let dd := normV (subV q2 q1)
  let exv := divFVs (toFV (subV q2 q1)) (.num dd)
  let iv := dotF exv (toFV (subV q3 q1))
  let eyn := subFV (toFV (subV q3 q1)) (smulFV iv exv)
  let eyv := divFVs eyn (normFV eyn)
  let ezv := crossF exv eyv
  let jv := dotF eyv (toFV (subV q3 q1))
  let xv := divF (addF (subF (powF (.num dA)) (powF (.num dB))) (powF (.num dd)))
                 (mulF (.num 2) (.num dd))
  let yv := subF (divF (addF (addF (subF (powF (.num dA)) (powF (.num dC)))
                                   (powF iv))
                             (powF jv))
                       (mulF (.num 2) jv))
                 (mulF (divF iv jv) xv)
  let zv :=
    match sqrtMath (subF (subF (powF (.num dA)) (powF xv)) (powF yv)) with
    | .ok v => v
    | .error _ => .nan
  let tp := addFV (addFV (addFV (toFV q1) (smulFV xv exv)) (smulFV yv eyv))
                  (smulFV zv ezv)
  ((asinF (divF tp.z (.num earthR))).map degreesF).map
    (fun lt => (degreesF (atan2F tp.y tp.x), lt))

/-- Rewrite the name field of an output line, for stating that the sample
name influences only the first output field. -/
def renameOut (s : String) : OutLine → OutLine
  | .header => .header
  | .data _ lon lat => .data s lon lat

/-- A parsed row whose references are A = (lon 0, lat 0), B = (lon 180,
lat 0), C = (lon 0, lat 90): this triple has an exactly rational local frame
(`ex = (-1,0,0)`, `ey = (0,0,1)`, `ez = (0,1,0)`, `d = 2R`, `i = j = R`). -/
def npRow (a b c : ℝ) : NumRow := ⟨a, b, c, 0, 0, 180, 0, 0, 90⟩

/-- A parsed row whose references all lie on the equator: A = (lon 0, lat 0),
B = (lon 180, lat 0), C = (lon 90, lat 0); the local frame is
`ex = (-1,0,0)`, `ey = (0,1,0)`, `ez = (0,0,-1)`, `d = 2R`, `i = j = R`. -/
def eqRow (a b c : ℝ) : NumRow := ⟨a, b, c, 0, 0, 180, 0, 90, 0⟩

/-- A raw field holding a decimal numeral. -/
def numField (s : String) (v : ℝ) : RawField := ⟨s, some v⟩

/-- Raw row S1: distances 13000, 18205, 11640 km to the references of
`npRow`; its final `asin` argument is finite and greater than 1. -/
def w1raw : RawRow :=
  ⟨[⟨(r"S1"), none⟩, numField (r"13000000") 13000000,
    numField (r"18205000") 18205000, numField (r"11640000") 11640000,
    numField (r"0") 0, numField (r"0") 0, numField (r"180") 180,
    numField (r"0") 0, numField (r"0") 0, numField (r"90") 90]⟩

/-- The parsed numeric fields of `w1raw`. -/
def w1num : NumRow := npRow 13000000 18205000 11640000

/-- Raw row S1B: like `w1raw` with distance C changed to 11641 km; again a
finite out-of-range `asin` argument. -/
def w1braw : RawRow :=
  ⟨[⟨(r"S1B"), none⟩, numField (r"13000000") 13000000,
    numField (r"18205000") 18205000, numField (r"11641000") 11641000,
    numField (r"0") 0, numField (r"0") 0, numField (r"180") 180,
    numField (r"0") 0, numField (r"0") 0, numField (r"90") 90]⟩

/-- The parsed numeric fields of `w1braw`. -/
def w1bnum : NumRow := npRow 13000000 18205000 11641000

/-- The ten fields of raw row S2: all three distances 7000 km to the
equatorial (all-latitude-zero) references of `eqRow`; the computation
produces a finite, NaN-free output row. -/
def w2fields : List RawField :=
  [⟨(r"S2"), none⟩, numField (r"7000000") 7000000,
   numField (r"7000000") 7000000, numField (r"7000000") 7000000,
   numField (r"0") 0, numField (r"0") 0, numField (r"180") 180,
   numField (r"0") 0, numField (r"90") 90, numField (r"0") 0]

/-- Raw row S2. -/
def w2raw : RawRow := ⟨w2fields⟩

/-- The parsed numeric fields of `w2raw`. -/
def w2num : NumRow := eqRow 7000000 7000000 7000000

/-- Raw row S4: references A and B coincide at (lon 0, lat 0), so
`d = ‖P2 - P1‖ = 0` and the unguarded division at line 92 hits a zero
divisor with a nonzero numerator (distances 1, 2, 1 km). -/
def w4raw : RawRow :=
  ⟨[⟨(r"S4"), none⟩, numField (r"1000") 1000, numField (r"2000") 2000,
    numField (r"1000") 1000, numField (r"0") 0, numField (r"0") 0,
    numField (r"0") 0, numField (r"0") 0, numField (r"90") 90,
    numField (r"0") 0]⟩

/-- The parsed numeric fields of `w4raw`. -/
def w4num : NumRow := ⟨1000, 2000, 1000, 0, 0, 0, 0, 90, 0⟩

/-- Raw row S5: equatorial references with distances 1, 1, 1 km; the height
discriminant is `1 - 6371² < 0`, so the row degrades to NaN. -/
def w5raw : RawRow :=
  ⟨[⟨(r"S5"), none⟩, numField (r"1000") 1000, numField (r"1000") 1000,
    numField (r"1000") 1000, numField (r"0") 0, numField (r"0") 0,
    numField (r"180") 180, numField (r"0") 0, numField (r"90") 90,
    numField (r"0") 0]⟩

/-- The parsed numeric fields of `w5raw`. -/
def w5num : NumRow := eqRow 1000 1000 1000

/-- Raw row S6: the ten fields of S2 followed by an eleventh, non-numeric
field — a "wrong column count" row that the script nevertheless processes. -/
def w6raw : RawRow := ⟨w2fields ++ [⟨(r"junk"), none⟩]⟩

/-- Raw row S8: only two fields, so `content[2]` raises IndexError. -/
def w8raw : RawRow := ⟨[⟨(r"S8"), none⟩, numField (r"5") 5]⟩

/-! Collapse and absorption rules for the `FVal` arithmetic. -/

theorem addF_num (a b : ℝ) : addF (.num a) (.num b) = .num (a + b) := rfl

theorem subF_num (a b : ℝ) : subF (.num a) (.num b) = .num (a - b) := rfl

theorem mulF_num (a b : ℝ) : mulF (.num a) (.num b) = .num (a * b) := rfl

theorem powF_num (a : ℝ) : powF (.num a) = .num (a ^ 2) := rfl

theorem powF_nan : powF .nan = .nan := rfl

theorem divF_num {b : ℝ} (a : ℝ) (hb : b ≠ 0) :
    divF (.num a) (.num b) = .num (a / b) := by
  simp [divF, hb]

theorem divF_num_zero (a : ℝ) :
    divF (.num a) (.num 0) =
      if a = 0 then .nan else if 0 < a then .inf true else .inf false := by
  simp [divF]

theorem addF_nan_left (v : FVal) : addF .nan v = .nan := by cases v <;> rfl

theorem addF_nan_right (v : FVal) : addF v .nan = .nan := by cases v <;> rfl

theorem subF_nan_left (v : FVal) : subF .nan v = .nan := by cases v <;> rfl

theorem subF_nan_right (v : FVal) : subF v .nan = .nan := by cases v <;> rfl

theorem mulF_nan_left (v : FVal) : mulF .nan v = .nan := by cases v <;> rfl

theorem mulF_nan_right (v : FVal) : mulF v .nan = .nan := by cases v <;> rfl

theorem divF_nan_left (v : FVal) : divF .nan v = .nan := by cases v <;> rfl

theorem divF_nan_right (v : FVal) : divF v .nan = .nan := by cases v <;> rfl

theorem sqrtMath_nan : sqrtMath .nan = .ok .nan := rfl

theorem sqrtMath_num_nonneg {a : ℝ} (h : 0 ≤ a) :
    sqrtMath (.num a) = .ok (.num (Real.sqrt a)) := by
  simp [sqrtMath, h]

theorem sqrtMath_num_neg {a : ℝ} (h : a < 0) :
    sqrtMath (.num a) = .error () := by
  simp [sqrtMath, not_le.mpr h]

theorem asinF_nan : asinF .nan = .ok .nan := rfl

theorem asinF_num_mem {a : ℝ} (h1 : -1 ≤ a) (h2 : a ≤ 1) :
    asinF (.num a) = .ok (.num (Real.arcsin a)) := by
  simp [asinF, h1, h2]

theorem asinF_num_gt {a : ℝ} (h : 1 < a) : asinF (.num a) = .error () := by
  simp [asinF, not_le.mpr h]

theorem degreesF_nan : degreesF .nan = .nan := rfl

theorem degreesF_num (a : ℝ) : degreesF (.num a) = .num (degreesR a) := rfl

theorem atan2F_nan_left (v : FVal) : atan2F .nan v = .nan := by cases v <;> rfl

theorem atan2F_nan_right (v : FVal) : atan2F v .nan = .nan := by cases v <;> rfl

theorem atan2F_num (b a : ℝ) : atan2F (.num b) (.num a) = .num (atan2R b a) := rfl

/-! NaN propagation through the tail of the pipeline: once the height `z` is
NaN, the `z*ez` summand poisons every component of `triPt` (IEEE
`NaN * x = NaN` even for `x = 0`), so the `asin` receives NaN, returns NaN,
and the row is emitted with NaN coordinates. -/

theorem triPt_z_of_zV_nan {r : NumRow} (h : zV r = .nan) : (triPt r).z = .nan := by
  have : (smulFV (zV r) (ezV r)).z = .nan := by
    simp [smulFV, h, mulF_nan_left]
  simp [triPt, addFV, this, addF_nan_right]

theorem triPt_y_of_zV_nan {r : NumRow} (h : zV r = .nan) : (triPt r).y = .nan := by
  have : (smulFV (zV r) (ezV r)).y = .nan := by
    simp [smulFV, h, mulF_nan_left]
  simp [triPt, addFV, this, addF_nan_right]

theorem triPt_x_of_zV_nan {r : NumRow} (h : zV r = .nan) : (triPt r).x = .nan := by
  have : (smulFV (zV r) (ezV r)).x = .nan := by
    simp [smulFV, h, mulF_nan_left]
  simp [triPt, addFV, this, addF_nan_right]

theorem asinArg_of_zV_nan {r : NumRow} (h : zV r = .nan) : asinArg r = .nan := by
  simp [asinArg, triPt_z_of_zV_nan h, divF_nan_left]

theorem latE_of_zV_nan {r : NumRow} (h : zV r = .nan) : latE r = .ok .nan := by
  simp [latE, asinArg_of_zV_nan h, asinF_nan, Except.map, degreesF_nan]

theorem lonF_of_zV_nan {r : NumRow} (h : zV r = .nan) : lonF r = .nan := by
  simp [lonF, triPt_y_of_zV_nan h, triPt_x_of_zV_nan h, atan2F_nan_left,
    degreesF_nan]

theorem latE_of_asinArg_nan {r : NumRow} (h : asinArg r = .nan) :
    latE r = .ok .nan := by
  simp [latE, h, asinF_nan, Except.map, degreesF_nan]

/-! Helper lemmas about column access and the parse chain. -/

theorem colFloat_ok_iff {rr : RawRow} {k : ℕ} {v : ℝ} :
    colFloat rr k = .ok v ↔
      ∃ f, rr.fields.get? k = some f ∧ f.val = some v := by
  unfold colFloat
  cases hg : rr.fields.get? k with
  | none => simp
  | some f =>
      cases hv : f.val with
      | none => simp [hv]
      | some w => simp [hv]

theorem getCol_zero_cons (f : RawField) (rest : List RawField) :
    getCol ⟨f :: rest⟩ 0 = .ok f := rfl

theorem parseNums_ok_elim {rr : RawRow} {nr : NumRow}
    (h : parseNums rr = .ok nr) :
    colFloat rr 1 = .ok nr.dist1 ∧ colFloat rr 2 = .ok nr.dist2 ∧
    colFloat rr 3 = .ok nr.dist3 ∧ colFloat rr 5 = .ok nr.lat1 ∧
    colFloat rr 4 = .ok nr.long1 ∧ colFloat rr 7 = .ok nr.lat2 ∧
    colFloat rr 6 = .ok nr.long2 ∧ colFloat rr 9 = .ok nr.lat3 ∧
    colFloat rr 8 = .ok nr.long3 := by
  unfold parseNums at h
  cases h1 : colFloat rr 1 <;> rw [h1] at h
  case error => exact absurd h (by simp)
  cases h2 : colFloat rr 2 <;> rw [h2] at h
  case error => exact absurd h (by simp)
  cases h3 : colFloat rr 3 <;> rw [h3] at h
  case error => exact absurd h (by simp)
  cases h5 : colFloat rr 5 <;> rw [h5] at h
  case error => exact absurd h (by simp)
  cases h4 : colFloat rr 4 <;> rw [h4] at h
  case error => exact absurd h (by simp)
  cases h7 : colFloat rr 7 <;> rw [h7] at h
  case error => exact absurd h (by simp)
  cases h6 : colFloat rr 6 <;> rw [h6] at h
  case error => exact absurd h (by simp)
  cases h9 : colFloat rr 9 <;> rw [h9] at h
  case error => exact absurd h (by simp)
  cases h8 : colFloat rr 8 <;> rw [h8] at h
  case error => exact absurd h (by simp)
  rw [Except.ok.injEq] at h
  subst h
  exact ⟨rfl, rfl, rfl, rfl, rfl, rfl, rfl, rfl, rfl⟩

theorem colFloat_ok_length {rr : RawRow} {k : ℕ} {v : ℝ}
    (h : colFloat rr k = .ok v) : k < rr.fields.length := by
  rcases colFloat_ok_iff.mp h with ⟨f, hf, _⟩
  exact List.get?_eq_some.mp hf |>.1

theorem parseNums_ok_length {rr : RawRow} {nr : NumRow}
    (h : parseNums rr = .ok nr) : 10 ≤ rr.fields.length := by
  have h9 := (parseNums_ok_elim h).2.2.2.2.2.2.2.1
  exact colFloat_ok_length h9

theorem fields_cons_of_parse {rr : RawRow} {nr : NumRow}
    (h : parseNums rr = .ok nr) :
    ∃ f rest, rr.fields = f :: rest := by
  have hlen := parseNums_ok_length h
  cases hfs : rr.fields with
  | nil => rw [hfs] at hlen; simp at hlen
  | cons f rest => exact ⟨f, rest, rfl⟩

theorem getCol_zero_of_parse {rr : RawRow} {nr : NumRow}
    (h : parseNums rr = .ok nr) :
    ∃ f, getCol rr 0 = .ok f ∧ f.text = rowName rr := by
  obtain ⟨f, rest, hfs⟩ := fields_cons_of_parse h
  refine ⟨f, ?_, ?_⟩
  · unfold getCol
    rw [hfs]
    rfl
  · unfold rowName
    rw [hfs]

theorem processRaw_ok_of {rr : RawRow} {nr : NumRow} {lv : FVal}
    (h1 : parseNums rr = .ok nr) (h2 : latE nr = .ok lv) :
    processRaw rr = .ok (.data (rowName rr) (lonF nr) lv) := by
  obtain ⟨f, hg, ht⟩ := getCol_zero_of_parse h1
  simp [processRaw, h1, h2, hg, ht]

theorem processRaw_error_of_parse {rr : RawRow} {e : Unit}
    (h : parseNums rr = .error e) : processRaw rr = .error () := by
  simp [processRaw, h]

theorem processRaw_error_of_lat {rr : RawRow} {nr : NumRow} {e : Unit}
    (h1 : parseNums rr = .ok nr) (h2 : latE nr = .error e) :
    processRaw rr = .error () := by
  simp [processRaw, h1, h2]

theorem processRaw_ok_elim {rr : RawRow} {o : OutLine}
    (h : processRaw rr = .ok o) :
    ∃ nr lv, parseNums rr = .ok nr ∧ latE nr = .ok lv ∧
      o = .data (rowName rr) (lonF nr) lv := by
  cases hp : parseNums rr with
  | error e =>
      rw [processRaw_error_of_parse hp] at h
      exact absurd h (by simp)
  | ok nr =>
      cases hl : latE nr with
      | error e =>
          rw [processRaw_error_of_lat hp hl] at h
          exact absurd h (by simp)
      | ok lv =>
          rw [processRaw_ok_of hp hl, Except.ok.injEq] at h
          exact ⟨nr, lv, rfl, hl, h.symm⟩

/-! The sample name (column 0) does not feed the numeric computation. -/

theorem parseNums_cons_irrel (f g : RawField) (rest : List RawField) :
    parseNums ⟨f :: rest⟩ = parseNums ⟨g :: rest⟩ := rfl

/-! Columns past index 9 are never accessed. -/

theorem colFloat_append {fs : List RawField} (extra : List RawField) {k : ℕ}
    (hk : k < fs.length) :
    colFloat ⟨fs ++ extra⟩ k = colFloat ⟨fs⟩ k := by
  unfold colFloat
  rw [show (RawRow.mk (fs ++ extra)).fields.get? k = fs.get? k from
    List.get?_append hk]

theorem getCol_append {fs : List RawField} (extra : List RawField) {k : ℕ}
    (hk : k < fs.length) :
    getCol ⟨fs ++ extra⟩ k = getCol ⟨fs⟩ k := by
  unfold getCol
  rw [show (RawRow.mk (fs ++ extra)).fields.get? k = fs.get? k from
    List.get?_append hk]

theorem parseNums_append {fs : List RawField} (extra : List RawField)
    (hlen : 10 ≤ fs.length) :
    parseNums ⟨fs ++ extra⟩ = parseNums ⟨fs⟩ := by
  unfold parseNums
  rw [colFloat_append extra (by omega), colFloat_append extra (by omega),
    colFloat_append extra (by omega), colFloat_append extra (by omega),
    colFloat_append extra (by omega), colFloat_append extra (by omega),
    colFloat_append extra (by omega), colFloat_append extra (by omega),
    colFloat_append extra (by omega)]

theorem processRaw_append {fs : List RawField} (extra : List RawField)
    (hlen : 10 ≤ fs.length) :
    processRaw ⟨fs ++ extra⟩ = processRaw ⟨fs⟩ := by
  unfold processRaw
  rw [parseNums_append extra hlen, getCol_append extra (by omega)]

/-! Parsed values of the concrete rows. -/

theorem parse_w1 : parseNums w1raw = .ok w1num := rfl

theorem parse_w1b : parseNums w1braw = .ok w1bnum := rfl

theorem parse_w2 : parseNums w2raw = .ok w2num := rfl

theorem parse_w4 : parseNums w4raw = .ok w4num := rfl

theorem parse_w5 : parseNums w5raw = .ok w5num := rfl

theorem parse_w8 : parseNums w8raw = .error () := rfl

/-! Exact values of the degree-to-radian conversions used by the rows. -/

theorem rad_zero : radiansR 0 = 0 := by
  simp [radiansR]

theorem rad_ninety : radiansR 90 = Real.pi / 2 := by
  unfold radiansR
  ring

theorem rad_oneeighty : radiansR 180 = Real.pi := by
  unfold radiansR
  ring

/-! Evaluation of the local frame for the `npRow` reference triple. -/

theorem np_P1 (a b c : ℝ) : P1 (npRow a b c) = ⟨6371, 0, 0⟩ := by
  simp [P1, xA, yA, zA, npRow, earthR, rad_zero, Vec3.mk.injEq]

theorem np_P2 (a b c : ℝ) : P2 (npRow a b c) = ⟨-6371, 0, 0⟩ := by
  simp [P2, xB, yB, zB, npRow, earthR, rad_zero, rad_oneeighty,
    Real.cos_pi, Real.sin_pi, Vec3.mk.injEq]

theorem np_P3 (a b c : ℝ) : P3 (npRow a b c) = ⟨0, 0, 6371⟩ := by
  simp [P3, xC, yC, zC, npRow, earthR, rad_zero, rad_ninety,
    Real.cos_pi_div_two, Real.sin_pi_div_two, Vec3.mk.injEq]

theorem np_sub21 (a b c : ℝ) :
    subV (P2 (npRow a b c)) (P1 (npRow a b c)) = ⟨-12742, 0, 0⟩ := by
  rw [np_P1, np_P2]
  norm_num [subV, Vec3.mk.injEq]

theorem np_sub31 (a b c : ℝ) :
    subV (P3 (npRow a b c)) (P1 (npRow a b c)) = ⟨-6371, 0, 6371⟩ := by
  rw [np_P1, np_P3]
  norm_num [subV, Vec3.mk.injEq]

theorem np_d (a b c : ℝ) : dV (npRow a b c) = 12742 := by
  rw [dV, np_sub21]
  rw [show normV ⟨-12742, 0, 0⟩ = Real.sqrt ((12742 : ℝ) ^ 2) from by
    unfold normV
    norm_num]
  exact Real.sqrt_sq (by norm_num)

theorem np_ex (a b c : ℝ) :
    exV (npRow a b c) = ⟨.num (-1), .num 0, .num 0⟩ := by
  rw [exV, np_sub21, np_d]
  norm_num [divFVs, toFV, FVec3.mk.injEq, divF, FVal.num.injEq]

theorem np_i (a b c : ℝ) : iV (npRow a b c) = .num 6371 := by
  rw [iV, np_ex, np_sub31]
  norm_num [dotF, toFV, mulF_num, addF_num, FVal.num.injEq]

theorem np_eyn (a b c : ℝ) :
    eyNumV (npRow a b c) = ⟨.num 0, .num 0, .num 6371⟩ := by
  rw [eyNumV, np_ex, np_i, np_sub31]
  norm_num [subFV, smulFV, toFV, mulF_num, subF_num, FVec3.mk.injEq,
    FVal.num.injEq]

theorem np_eynorm (a b c : ℝ) : normFV (eyNumV (npRow a b c)) = .num 6371 := by
  rw [np_eyn]
  unfold normFV
  rw [show addF (addF (mulF (.num 0) (.num 0)) (mulF (.num 0) (.num 0)))
        (mulF (.num 6371) (.num 6371)) = FVal.num ((6371 : ℝ) ^ 2) from by
    norm_num [mulF_num, addF_num, FVal.num.injEq]]
  simp only [sqrtNP]
  rw [if_pos (by positivity), Real.sqrt_sq (by norm_num)]

theorem np_ey (a b c : ℝ) :
    eyV (npRow a b c) = ⟨.num 0, .num 0, .num 1⟩ := by
  rw [eyV, np_eynorm, np_eyn]
  norm_num [divFVs, FVec3.mk.injEq, divF, FVal.num.injEq]

theorem np_ez (a b c : ℝ) :
    ezV (npRow a b c) = ⟨.num 0, .num 1, .num 0⟩ := by
  rw [ezV, np_ex, np_ey]
  norm_num [crossF, mulF_num, subF_num, FVec3.mk.injEq, FVal.num.injEq]

theorem np_j (a b c : ℝ) : jV (npRow a b c) = .num 6371 := by
  rw [jV, np_ey, np_sub31]
  norm_num [dotF, toFV, mulF_num, addF_num, FVal.num.injEq]

theorem np_x (a b c : ℝ) :
    xV (npRow a b c) =
      .num (((a / 1000) ^ 2 - (b / 1000) ^ 2 + 12742 ^ 2) / 25484) := by
  rw [xV, np_d]
  rw [show DistA (npRow a b c) = a / 1000 from rfl,
    show DistB (npRow a b c) = b / 1000 from rfl]
  simp only [powF_num, subF_num, addF_num, mulF_num]
  rw [divF_num _ (by norm_num : (2 : ℝ) * 12742 ≠ 0)]
  norm_num

theorem np_y (a b c : ℝ) :
    yV (npRow a b c) =
      .num (((a / 1000) ^ 2 - (c / 1000) ^ 2 + 6371 ^ 2 + 6371 ^ 2) / 12742 -
        ((a / 1000) ^ 2 - (b / 1000) ^ 2 + 12742 ^ 2) / 25484) := by
  rw [yV, np_i, np_j, np_x]
  rw [show DistA (npRow a b c) = a / 1000 from rfl,
    show DistC (npRow a b c) = c / 1000 from rfl]
  simp only [powF_num, subF_num, addF_num, mulF_num]
  rw [divF_num _ (by norm_num : (2 : ℝ) * 6371 ≠ 0),
    divF_num _ (by norm_num : (6371 : ℝ) ≠ 0)]
  simp only [mulF_num, subF_num, FVal.num.injEq]
  norm_num

/-! Evaluation of the local frame for the `eqRow` reference triple. -/

theorem eq_P1 (a b c : ℝ) : P1 (eqRow a b c) = ⟨6371, 0, 0⟩ := by
  simp [P1, xA, yA, zA, eqRow, earthR, rad_zero, Vec3.mk.injEq]

theorem eq_P2 (a b c : ℝ) : P2 (eqRow a b c) = ⟨-6371, 0, 0⟩ := by
  simp [P2, xB, yB, zB, eqRow, earthR, rad_zero, rad_oneeighty,
    Real.cos_pi, Real.sin_pi, Vec3.mk.injEq]

theorem eq_P3 (a b c : ℝ) : P3 (eqRow a b c) = ⟨0, 6371, 0⟩ := by
  simp [P3, xC, yC, zC, eqRow, earthR, rad_zero, rad_ninety,
    Real.cos_pi_div_two, Real.sin_pi_div_two, Vec3.mk.injEq]

theorem eq_sub21 (a b c : ℝ) :
    subV (P2 (eqRow a b c)) (P1 (eqRow a b c)) = ⟨-12742, 0, 0⟩ := by
  rw [eq_P1, eq_P2]
  norm_num [subV, Vec3.mk.injEq]

theorem eq_sub31 (a b c : ℝ) :
    subV (P3 (eqRow a b c)) (P1 (eqRow a b c)) = ⟨-6371, 6371, 0⟩ := by
  rw [eq_P1, eq_P3]
  norm_num [subV, Vec3.mk.injEq]

theorem eq_d (a b c : ℝ) : dV (eqRow a b c) = 12742 := by
  rw [dV, eq_sub21]
  rw [show normV ⟨-12742, 0, 0⟩ = Real.sqrt ((12742 : ℝ) ^ 2) from by
    unfold normV
    norm_num]
  exact Real.sqrt_sq (by norm_num)

theorem eq_ex (a b c : ℝ) :
    exV (eqRow a b c) = ⟨.num (-1), .num 0, .num 0⟩ := by
  rw [exV, eq_sub21, eq_d]
  norm_num [divFVs, toFV, FVec3.mk.injEq, divF, FVal.num.injEq]

theorem eq_i (a b c : ℝ) : iV (eqRow a b c) = .num 6371 := by
  rw [iV, eq_ex, eq_sub31]
  norm_num [dotF, toFV, mulF_num, addF_num, FVal.num.injEq]

theorem eq_eyn (a b c : ℝ) :
    eyNumV (eqRow a b c) = ⟨.num 0, .num 6371, .num 0⟩ := by
  rw [eyNumV, eq_ex, eq_i, eq_sub31]
  norm_num [subFV, smulFV, toFV, mulF_num, subF_num, FVec3.mk.injEq,
    FVal.num.injEq]

theorem eq_eynorm (a b c : ℝ) : normFV (eyNumV (eqRow a b c)) = .num 6371 := by
  rw [eq_eyn]
  unfold normFV
  rw [show addF (addF (mulF (.num 0) (.num 0)) (mulF (.num 6371) (.num 6371)))
        (mulF (.num 0) (.num 0)) = FVal.num ((6371 : ℝ) ^ 2) from by
    norm_num [mulF_num, addF_num, FVal.num.injEq]]
  simp only [sqrtNP]
  rw [if_pos (by positivity), Real.sqrt_sq (by norm_num)]

theorem eq_ey (a b c : ℝ) :
    eyV (eqRow a b c) = ⟨.num 0, .num 1, .num 0⟩ := by
  rw [eyV, eq_eynorm, eq_eyn]
  norm_num [divFVs, FVec3.mk.injEq, divF, FVal.num.injEq]

theorem eq_ez (a b c : ℝ) :
    ezV (eqRow a b c) = ⟨.num 0, .num 0, .num (-1)⟩ := by
  rw [ezV, eq_ex, eq_ey]
  norm_num [crossF, mulF_num, subF_num, FVec3.mk.injEq, FVal.num.injEq]

theorem eq_j (a b c : ℝ) : jV (eqRow a b c) = .num 6371 := by
  rw [jV, eq_ey, eq_sub31]
  norm_num [dotF, toFV, mulF_num, addF_num, FVal.num.injEq]

theorem eq_x (a b c : ℝ) :
    xV (eqRow a b c) =
      .num (((a / 1000) ^ 2 - (b / 1000) ^ 2 + 12742 ^ 2) / 25484) := by
  rw [xV, eq_d]
  rw [show DistA (eqRow a b c) = a / 1000 from rfl,
    show DistB (eqRow a b c) = b / 1000 from rfl]
  simp only [powF_num, subF_num, addF_num, mulF_num]
  rw [divF_num _ (by norm_num : (2 : ℝ) * 12742 ≠ 0)]
  norm_num

theorem eq_y (a b c : ℝ) :
    yV (eqRow a b c) =
      .num (((a / 1000) ^ 2 - (c / 1000) ^ 2 + 6371 ^ 2 + 6371 ^ 2) / 12742 -
        ((a / 1000) ^ 2 - (b / 1000) ^ 2 + 12742 ^ 2) / 25484) := by
  rw [yV, eq_i, eq_j, eq_x]
  rw [show DistA (eqRow a b c) = a / 1000 from rfl,
    show DistC (eqRow a b c) = c / 1000 from rfl]
  simp only [powF_num, subF_num, addF_num, mulF_num]
  rw [divF_num _ (by norm_num : (2 : ℝ) * 6371 ≠ 0),
    divF_num _ (by norm_num : (6371 : ℝ) ≠ 0)]
  simp only [mulF_num, subF_num, FVal.num.injEq]
  norm_num

/-! Evaluation of row S1: a finite `asin` argument greater than one. -/

theorem w1_x : xV w1num = .num (-63461 / 25484) := by
  simp only [w1num]
  rw [np_x]
  norm_num [FVal.num.injEq]

theorem w1_y : yV w1num = .num (229442825 / 25484) := by
  simp only [w1num]
  rw [np_y]
  norm_num [FVal.num.injEq]

theorem w1_DistA : DistA w1num = 13000 := by
  norm_num [DistA, w1num, npRow]

theorem w1_disc :
    discV w1num =
      .num (13000 ^ 2 - (-63461 / 25484) ^ 2 - (229442825 / 25484) ^ 2) := by
  rw [discV, w1_x, w1_y, w1_DistA]
  simp only [powF_num, subF_num]

theorem w1_disc_nonneg :
    (0 : ℝ) ≤ 13000 ^ 2 - (-63461 / 25484) ^ 2 - (229442825 / 25484) ^ 2 := by
  norm_num

theorem w1_z :
    zV w1num =
      .num (Real.sqrt
        (13000 ^ 2 - (-63461 / 25484) ^ 2 - (229442825 / 25484) ^ 2)) := by
  unfold zV
  rw [w1_disc, sqrtMath_num_nonneg w1_disc_nonneg]

theorem w1_triZ : (triPt w1num).z = .num (229442825 / 25484) := by
  have hP1 : P1 w1num = ⟨6371, 0, 0⟩ := np_P1 _ _ _
  have hex : exV w1num = ⟨.num (-1), .num 0, .num 0⟩ := np_ex _ _ _
  have hey : eyV w1num = ⟨.num 0, .num 0, .num 1⟩ := np_ey _ _ _
  have hez : ezV w1num = ⟨.num 0, .num 1, .num 0⟩ := np_ez _ _ _
  unfold triPt
  rw [hP1, hex, hey, hez, w1_x, w1_y, w1_z]
  norm_num [addFV, smulFV, toFV, mulF_num, addF_num, FVal.num.injEq]

theorem w1_asinArg : asinArg w1num = .num (229442825 / 162358564) := by
  unfold asinArg
  rw [w1_triZ, divF_num _ (by norm_num [earthR] : earthR ≠ 0)]
  norm_num [earthR, FVal.num.injEq]

theorem w1_latE : latE w1num = .error () := by
  unfold latE
  rw [w1_asinArg,
    asinF_num_gt (by norm_num : (1 : ℝ) < 229442825 / 162358564)]
  rfl

theorem hw1_err : processRaw w1raw = .error () :=
  processRaw_error_of_lat parse_w1 w1_latE

/-! Evaluation of row S1B: a second finite out-of-range `asin` argument. -/

theorem w1b_x : xV w1bnum = .num (-63461 / 25484) := by
  simp only [w1bnum]
  rw [np_x]
  norm_num [FVal.num.injEq]

theorem w1b_y : yV w1bnum = .num (229396263 / 25484) := by
  simp only [w1bnum]
  rw [np_y]
  norm_num [FVal.num.injEq]

theorem w1b_DistA : DistA w1bnum = 13000 := by
  norm_num [DistA, w1bnum, npRow]

theorem w1b_disc :
    discV w1bnum =
      .num (13000 ^ 2 - (-63461 / 25484) ^ 2 - (229396263 / 25484) ^ 2) := by
  rw [discV, w1b_x, w1b_y, w1b_DistA]
  simp only [powF_num, subF_num]

theorem w1b_disc_nonneg :
    (0 : ℝ) ≤ 13000 ^ 2 - (-63461 / 25484) ^ 2 - (229396263 / 25484) ^ 2 := by
  norm_num

theorem w1b_z :
    zV w1bnum =
      .num (Real.sqrt
        (13000 ^ 2 - (-63461 / 25484) ^ 2 - (229396263 / 25484) ^ 2)) := by
  unfold zV
  rw [w1b_disc, sqrtMath_num_nonneg w1b_disc_nonneg]

theorem w1b_triZ : (triPt w1bnum).z = .num (229396263 / 25484) := by
  have hP1 : P1 w1bnum = ⟨6371, 0, 0⟩ := np_P1 _ _ _
  have hex : exV w1bnum = ⟨.num (-1), .num 0, .num 0⟩ := np_ex _ _ _
  have hey : eyV w1bnum = ⟨.num 0, .num 0, .num 1⟩ := np_ey _ _ _
  have hez : ezV w1bnum = ⟨.num 0, .num 1, .num 0⟩ := np_ez _ _ _
  unfold triPt
  rw [hP1, hex, hey, hez, w1b_x, w1b_y, w1b_z]
  norm_num [addFV, smulFV, toFV, mulF_num, addF_num, FVal.num.injEq]

theorem w1b_asinArg : asinArg w1bnum = .num (229396263 / 162358564) := by
  unfold asinArg
  rw [w1b_triZ, divF_num _ (by norm_num [earthR] : earthR ≠ 0)]
  norm_num [earthR, FVal.num.injEq]

/-! Evaluation of row S2: a finite, NaN-free output row from all-equatorial
references with geometry-consistent distances. -/

theorem w2_x : xV w2num = .num 6371 := by
  simp only [w2num]
  rw [eq_x]
  norm_num [FVal.num.injEq]

theorem w2_y : yV w2num = .num 0 := by
  simp only [w2num]
  rw [eq_y]
  norm_num [FVal.num.injEq]

theorem w2_DistA : DistA w2num = 7000 := by
  norm_num [DistA, w2num, eqRow]

theorem w2_disc : discV w2num = .num 8410359 := by
  rw [discV, w2_x, w2_y, w2_DistA]
  norm_num [powF_num, subF_num, FVal.num.injEq]

theorem w2_z : zV w2num = .num (Real.sqrt 8410359) := by
  unfold zV
  rw [w2_disc, sqrtMath_num_nonneg (by norm_num : (0 : ℝ) ≤ 8410359)]

theorem w2_sqrt_le : Real.sqrt 8410359 ≤ 6371 := by
  rw [show (6371 : ℝ) = Real.sqrt (6371 ^ 2) from
    (Real.sqrt_sq (by norm_num)).symm]
  exact Real.sqrt_le_sqrt (by norm_num)

theorem w2_triPt :
    triPt w2num = ⟨.num 0, .num 0, .num (-(Real.sqrt 8410359))⟩ := by
  have hP1 : P1 w2num = ⟨6371, 0, 0⟩ := eq_P1 _ _ _
  have hex : exV w2num = ⟨.num (-1), .num 0, .num 0⟩ := eq_ex _ _ _
  have hey : eyV w2num = ⟨.num 0, .num 1, .num 0⟩ := eq_ey _ _ _
  have hez : ezV w2num = ⟨.num 0, .num 0, .num (-1)⟩ := eq_ez _ _ _
  unfold triPt
  rw [hP1, hex, hey, hez, w2_x, w2_y, w2_z]
  norm_num [addFV, smulFV, toFV, mulF_num, addF_num, FVec3.mk.injEq,
    FVal.num.injEq]

theorem w2_asinArg : asinArg w2num = .num (-(Real.sqrt 8410359) / 6371) := by
  unfold asinArg
  rw [w2_triPt]
  rw [show ((⟨.num 0, .num 0, .num (-(Real.sqrt 8410359))⟩ : FVec3)).z =
    .num (-(Real.sqrt 8410359)) from rfl]
  rw [divF_num _ (by norm_num [earthR] : earthR ≠ 0)]
  norm_num [earthR, FVal.num.injEq]

theorem w2_latE :
    latE w2num =
      .ok (.num (degreesR (Real.arcsin (-(Real.sqrt 8410359) / 6371)))) := by
  have hb1 : (-1 : ℝ) ≤ -(Real.sqrt 8410359) / 6371 := by
    rw [neg_div]
    have h := (div_le_one (by norm_num : (0 : ℝ) < 6371)).mpr w2_sqrt_le
    linarith
  have hb2 : -(Real.sqrt 8410359) / 6371 ≤ 1 := by
    rw [neg_div]
    have h0 : 0 ≤ Real.sqrt 8410359 / 6371 :=
      div_nonneg (Real.sqrt_nonneg _) (by norm_num)
    linarith
  unfold latE
  rw [w2_asinArg, asinF_num_mem hb1 hb2]
  rfl

theorem w2_lon : lonF w2num = .num 0 := by
  unfold lonF
  rw [w2_triPt]
  rw [show ((⟨.num 0, .num 0, .num (-(Real.sqrt 8410359))⟩ : FVec3)).y =
    FVal.num 0 from rfl]
  rw [show ((⟨.num 0, .num 0, .num (-(Real.sqrt 8410359))⟩ : FVec3)).x =
    FVal.num 0 from rfl]
  rw [atan2F_num, degreesF_num]
  simp [atan2R, degreesR]

theorem hw2_ok :
    processRaw w2raw =
      .ok (.data (r"S2") (.num 0)
        (.num (degreesR (Real.arcsin (-(Real.sqrt 8410359) / 6371))))) := by
  have h := processRaw_ok_of parse_w2 w2_latE
  rw [w2_lon] at h
  exact h

/-! Evaluation of row S5: a negative height discriminant degrades the row to
NaN coordinates without aborting. -/

theorem w5_x : xV w5num = .num 6371 := by
  simp only [w5num]
  rw [eq_x]
  norm_num [FVal.num.injEq]

theorem w5_y : yV w5num = .num 0 := by
  simp only [w5num]
  rw [eq_y]
  norm_num [FVal.num.injEq]

theorem w5_DistA : DistA w5num = 1 := by
  norm_num [DistA, w5num, eqRow]

theorem w5_disc : discV w5num = .num (-40589640) := by
  rw [discV, w5_x, w5_y, w5_DistA]
  norm_num [powF_num, subF_num, FVal.num.injEq]

theorem w5_z : zV w5num = .nan := by
  unfold zV
  rw [w5_disc, sqrtMath_num_neg (by norm_num : (-40589640 : ℝ) < 0)]

theorem hw5_ok : processRaw w5raw = .ok (.data (r"S5") .nan .nan) := by
  have h := processRaw_ok_of parse_w5 (latE_of_zV_nan w5_z)
  rw [lonF_of_zV_nan w5_z] at h
  exact h

theorem hw8_err : processRaw w8raw = .error () :=
  processRaw_error_of_parse parse_w8

/-! When references A and B coincide, `d = 0`: the basis normalisation is
0/0, the `x` division hits a zero divisor, and everything downstream of the
height `z` is NaN, so the row is emitted with NaN coordinates. -/

theorem coin_P (nr : NumRow) (h1 : nr.long1 = nr.long2)
    (h2 : nr.lat1 = nr.lat2) : P2 nr = P1 nr := by
  unfold P1 P2 xA yA zA xB yB zB
  rw [h1, h2]

theorem coin_sub21 (nr : NumRow) (h1 : nr.long1 = nr.long2)
    (h2 : nr.lat1 = nr.lat2) :
    subV (P2 nr) (P1 nr) = ⟨0, 0, 0⟩ := by
  rw [coin_P nr h1 h2]
  simp [subV]

theorem coin_d (nr : NumRow) (h1 : nr.long1 = nr.long2)
    (h2 : nr.lat1 = nr.lat2) : dV nr = 0 := by
  rw [dV, coin_sub21 nr h1 h2]
  unfold normV
  norm_num

theorem coin_ex (nr : NumRow) (h1 : nr.long1 = nr.long2)
    (h2 : nr.lat1 = nr.lat2) : exV nr = ⟨.nan, .nan, .nan⟩ := by
  rw [exV, coin_sub21 nr h1 h2, coin_d nr h1 h2]
  simp [divFVs, toFV, divF]

theorem coin_i (nr : NumRow) (h1 : nr.long1 = nr.long2)
    (h2 : nr.lat1 = nr.lat2) : iV nr = .nan := by
  rw [iV, coin_ex nr h1 h2]
  simp [dotF, mulF_nan_left, addF_nan_left]

theorem coin_eyn (nr : NumRow) (h1 : nr.long1 = nr.long2)
    (h2 : nr.lat1 = nr.lat2) : eyNumV nr = ⟨.nan, .nan, .nan⟩ := by
  rw [eyNumV, coin_i nr h1 h2, coin_ex nr h1 h2]
  simp [subFV, smulFV, toFV, mulF_nan_left, subF_nan_right]

theorem coin_ey (nr : NumRow) (h1 : nr.long1 = nr.long2)
    (h2 : nr.lat1 = nr.lat2) : eyV nr = ⟨.nan, .nan, .nan⟩ := by
  rw [eyV, coin_eyn nr h1 h2]
  simp [divFVs, divF_nan_left]

theorem coin_j (nr : NumRow) (h1 : nr.long1 = nr.long2)
    (h2 : nr.lat1 = nr.lat2) : jV nr = .nan := by
  rw [jV, coin_ey nr h1 h2]
  simp [dotF, mulF_nan_left, addF_nan_left]

theorem coin_x (nr : NumRow) (h1 : nr.long1 = nr.long2)
    (h2 : nr.lat1 = nr.lat2) :
    xV nr = .nan ∨ xV nr = .inf true ∨ xV nr = .inf false := by
  rw [xV, coin_d nr h1 h2]
  simp only [powF_num, subF_num, addF_num, mulF_num, mul_zero]
  rw [divF_num_zero]
  rcases lt_trichotomy (DistA nr ^ 2 - DistB nr ^ 2 + 0 ^ 2) 0 with hlt | heq | hgt
  · right; right
    rw [if_neg (by linarith), if_neg (by linarith)]
  · left
    rw [if_pos heq]
  · right; left
    rw [if_neg (by linarith), if_pos hgt]

theorem coin_y (nr : NumRow) (h1 : nr.long1 = nr.long2)
    (h2 : nr.lat1 = nr.lat2) : yV nr = .nan := by
  rw [yV, coin_i nr h1 h2, coin_j nr h1 h2]
  simp [powF_nan, addF_nan_right, mulF_nan_right, divF_nan_right,
    mulF_nan_left, subF_nan_left, divF_nan_left, subF_nan_right]

theorem coin_disc (nr : NumRow) (h1 : nr.long1 = nr.long2)
    (h2 : nr.lat1 = nr.lat2) : discV nr = .nan := by
  rw [discV, coin_y nr h1 h2]
  simp [powF_nan, subF_nan_right]

theorem coin_z (nr : NumRow) (h1 : nr.long1 = nr.long2)
    (h2 : nr.lat1 = nr.lat2) : zV nr = .nan := by
  unfold zV
  rw [coin_disc nr h1 h2, sqrtMath_nan]

theorem asinF_num_out {a : ℝ} (h : a < -1 ∨ 1 < a) :
    asinF (.num a) = .error () := by
  rcases h with h | h
  · simp [asinF, not_le.mpr h]
  · simp [asinF, not_le.mpr h]

/-- C1 (counterexample): on row S1 the `asin` argument is the finite number
229442825/162358564 > 1 — a domain error at line 107 — and the script aborts
with an uncaught ValueError instead of emitting a NaN-valued row. -/
theorem C1_counterexample :
    asinArg w1num = .num (229442825 / 162358564) ∧
    (1 : ℝ) < 229442825 / 162358564 ∧
    processRaw w1raw = .error () :=
  ⟨w1_asinArg, by norm_num, hw1_err⟩

/-- C1 (amended): for every parsed row, a NaN `asin` argument resolves to a
NaN-valued latitude in an emitted output row keyed to the original sample
name, but a finite `asin` argument outside [-1, 1] raises an uncaught domain
error that aborts the batch. -/
theorem C1_asin_domain (rr : RawRow) (nr : NumRow)
    (hp : parseNums rr = .ok nr) :
    (asinArg nr = .nan →
      processRaw rr = .ok (.data (rowName rr) (lonF nr) .nan)) ∧
    (∀ a : ℝ, asinArg nr = .num a → (a < -1 ∨ 1 < a) →
      processRaw rr = .error ()) := by
  constructor
  · intro hn
    exact processRaw_ok_of hp (latE_of_asinArg_nan hn)
  · intro a ha hout
    have hl : latE nr = .error () := by
      unfold latE
      rw [ha, asinF_num_out hout]
      rfl
    exact processRaw_error_of_lat hp hl

/-- C1 (witness): row S1B parses, its `asin` argument is finite and greater
than one, and the amended theorem yields the fatal abort there. -/
theorem C1_asin_domain_witness : processRaw w1braw = .error () :=
  (C1_asin_domain w1braw w1bnum parse_w1b).2 (229396263 / 162358564)
    w1b_asinArg (Or.inr (by norm_num))

/-- C2 (counterexample): references all at latitude 0 varying only in
longitude are NOT degenerate — on row S2 `j = 6371 ≠ 0` — and with
geometry-consistent distances the row's emitted longitude and latitude are
finite numbers, not NaN. -/
theorem C2_counterexample :
    jV w2num = .num 6371 ∧
    processRaw w2raw =
      .ok (.data (r"S2") (.num 0)
        (.num (degreesR (Real.arcsin (-(Real.sqrt 8410359) / 6371))))) ∧
    (FVal.num 0).isNaN = false ∧
    (FVal.num
      (degreesR (Real.arcsin (-(Real.sqrt 8410359) / 6371)))).isNaN = false :=
  ⟨eq_j 7000000 7000000 7000000, hw2_ok, rfl, rfl⟩

/-- C2 (amended): for every parsed row whose references A and B coincide
(`d = ‖P2 - P1‖ = 0`), the unguarded division for `x` yields ±Inf, or NaN
when the numerator also vanishes, by floating-point semantics, and the row
is emitted with NaN longitude and latitude without crashing the batch;
references all at latitude 0 with distinct longitudes are not degenerate
(`j ≠ 0`) and yield a NaN row only when the height discriminant is
negative. -/
theorem C2_degenerate (rr : RawRow) (nr : NumRow)
    (hp : parseNums rr = .ok nr) (h1 : nr.long1 = nr.long2)
    (h2 : nr.lat1 = nr.lat2) :
    dV nr = 0 ∧
    (xV nr = .nan ∨ xV nr = .inf true ∨ xV nr = .inf false) ∧
    processRaw rr = .ok (.data (rowName rr) .nan .nan) := by
  refine ⟨coin_d nr h1 h2, coin_x nr h1 h2, ?_⟩
  have hz := coin_z nr h1 h2
  have h := processRaw_ok_of hp (latE_of_zV_nan hz)
  rw [lonF_of_zV_nan hz] at h
  exact h

/-- C2 (witness): row S4 has coincident references A and B; the amended
theorem emits it as a NaN row without aborting. -/
theorem C2_degenerate_witness :
    processRaw w4raw = .ok (.data (r"S4") .nan .nan) :=
  (C2_degenerate w4raw w4num parse_w4 rfl rfl).2.2

/-- C3: for every parsed row whose height discriminant
`DistA² - x² - y²` is a finite number `v`, the height is
`z = sqrt(v)` when `v ≥ 0`, and `z = NaN` when `v < 0`; in the NaN case the
row is still emitted under its original name (with NaN latitude). -/
theorem C3_height (rr : RawRow) (nr : NumRow) (v : ℝ)
    (hp : parseNums rr = .ok nr) (hd : discV nr = .num v) :
    (0 ≤ v → zV nr = .num (Real.sqrt v)) ∧
    (v < 0 → zV nr = .nan ∧
      processRaw rr = .ok (.data (rowName rr) (lonF nr) .nan)) := by
  constructor
  · intro hv
    unfold zV
    rw [hd, sqrtMath_num_nonneg hv]
  · intro hv
    have hz : zV nr = .nan := by
      unfold zV
      rw [hd, sqrtMath_num_neg hv]
    exact ⟨hz, processRaw_ok_of hp (latE_of_zV_nan hz)⟩

/-- C3 (witness): row S2 has discriminant 8410359 ≥ 0 and height
`sqrt(8410359)`; row S5 has discriminant -40589640 < 0, gets `z = NaN`, and
is still emitted under its name S5. -/
theorem C3_height_witness :
    zV w2num = .num (Real.sqrt 8410359) ∧ zV w5num = .nan ∧
    processRaw w5raw = .ok (.data (r"S5") (lonF w5num) .nan) := by
  have h5 := (C3_height w5raw w5num (-40589640) parse_w5 w5_disc).2
    (by norm_num)
  exact ⟨(C3_height w2raw w2num 8410359 parse_w2 w2_disc).1 (by norm_num),
    h5.1, h5.2⟩

/-- C4: the nine numeric columns parse positionally (1-3 the distances,
4 = lon_A, 5 = lat_A, 6 = lon_B, 7 = lat_B, 8 = lon_C, 9 = lat_C), and each
reference point is converted to ECEF on the sphere of radius `earthR = 6371`
by exactly the spec's formulas `x = R·cos(lat)·cos(lon)`,
`y = R·cos(lat)·sin(lon)`, `z = R·sin(lat)`, giving `P1`, `P2`, `P3`. -/
theorem C4_ecef (t0 : RawField) (s1 s2 s3 s4 s5 s6 s7 s8 s9 : String)
    (v1 v2 v3 v4 v5 v6 v7 v8 v9 : ℝ) :
    parseNums ⟨[t0, ⟨s1, some v1⟩, ⟨s2, some v2⟩, ⟨s3, some v3⟩,
      ⟨s4, some v4⟩, ⟨s5, some v5⟩, ⟨s6, some v6⟩, ⟨s7, some v7⟩,
      ⟨s8, some v8⟩, ⟨s9, some v9⟩]⟩ =
        .ok ⟨v1, v2, v3, v4, v5, v6, v7, v8, v9⟩ ∧
    P1 ⟨v1, v2, v3, v4, v5, v6, v7, v8, v9⟩ = specToECEF v4 v5 ∧
    P2 ⟨v1, v2, v3, v4, v5, v6, v7, v8, v9⟩ = specToECEF v6 v7 ∧
    P3 ⟨v1, v2, v3, v4, v5, v6, v7, v8, v9⟩ = specToECEF v8 v9 :=
  ⟨rfl, rfl, rfl, rfl⟩

/-- C5: the per-row computation factors through the spec's Trilaterator
applied to the three distances divided by 1000 — every distance is converted
from metres to kilometres before any use, and all internal distance
arithmetic is in kilometres. -/
theorem C5_km_units (nr : NumRow) :
    processNum nr =
      trilatCore (nr.dist1 / 1000) (nr.dist2 / 1000) (nr.dist3 / 1000)
        (P1 nr) (P2 nr) (P3 nr) := rfl

/-- C6: when the height discriminant is a finite `v ≥ 0`, the height used to
recover the global point is the non-negative root `sqrt(v) ≥ 0`, and `triPt`
is built from `P1 + x·ex + y·ey + sqrt(v)·ez`; the mirror solution
`-sqrt(v)` is never computed. -/
theorem C6_nonneg_root (nr : NumRow) (v : ℝ) (hd : discV nr = .num v)
    (hv : 0 ≤ v) :
    zV nr = .num (Real.sqrt v) ∧ 0 ≤ Real.sqrt v ∧
    triPt nr =
      addFV (addFV (addFV (toFV (P1 nr)) (smulFV (xV nr) (exV nr)))
        (smulFV (yV nr) (eyV nr))) (smulFV (.num (Real.sqrt v)) (ezV nr)) := by
  have hz : zV nr = .num (Real.sqrt v) := by
    unfold zV
    rw [hd, sqrtMath_num_nonneg hv]
  refine ⟨hz, Real.sqrt_nonneg v, ?_⟩
  unfold triPt
  rw [hz]

/-- C6 (witness): on row S2 the discriminant is 8410359 and the height used
is its non-negative square root. -/
theorem C6_nonneg_root_witness :
    zV w2num = .num (Real.sqrt 8410359) ∧ 0 ≤ Real.sqrt 8410359 := by
  have h := C6_nonneg_root w2num 8410359 w2_disc (by norm_num)
  exact ⟨h.1, h.2.1⟩

theorem runRows_cons_ok {r : RawRow} {o : OutLine}
    (ho : processRaw r = .ok o) (rs : List RawRow) :
    runRows (r :: rs) = o :: runRows rs := by
  simp only [runRows, ho]

theorem runRows_cons_err {r : RawRow} {e : Unit}
    (he : processRaw r = .error e) (rs : List RawRow) :
    runRows (r :: rs) = [] := by
  simp only [runRows, he]

/-- C7 (counterexample): the two-row input file [S2, S1] is well formed and
parseable, yet the output has only 2 rows (header plus S2), not 2 + 1 = 3:
row S1 aborts the batch at the unguarded `asin`, truncating the output. -/
theorem C7_counterexample :
    (mainList [w2raw, w1raw]).length = 2 ∧
    ([w2raw, w1raw] : List RawRow).length = 2 := by
  constructor
  · simp [mainList, runRows, hw2_ok, hw1_err]
  · rfl

/-- C7 (amended): for every input whose rows all process without an uncaught
exception, the output is the header line followed by exactly one data row
per input row, in input order, each carrying its row's column-0 name
unchanged; the total is N + 1 lines.  (Rows producing NaN count as
processed.)  A row that raises — bad parse or out-of-range `asin` — aborts
the batch and truncates the output instead. -/
theorem C7_rowcount (rows : List RawRow)
    (h : ∀ r ∈ rows, (processRaw r).isOk = true) :
    ∃ outs : List OutLine,
      List.Forall₂ (fun r o => processRaw r = .ok o ∧
        ∃ lon lt, o = OutLine.data (rowName r) lon lt) rows outs ∧
      mainList rows = OutLine.header :: outs ∧
      (mainList rows).length = rows.length + 1 := by
  induction rows with
  | nil => exact ⟨[], List.Forall₂.nil, rfl, rfl⟩
  | cons r rs ih =>
      have hr : (processRaw r).isOk = true := h r (List.mem_cons_self r rs)
      obtain ⟨o, ho⟩ : ∃ o, processRaw r = .ok o := by
        cases hpr : processRaw r with
        | error e =>
            rw [hpr] at hr
            exact absurd hr (by simp [Except.isOk, Except.toBool])
        | ok o => exact ⟨o, rfl⟩
      obtain ⟨outs, hfa, hmain, _⟩ :=
        ih (fun q hq => h q (List.mem_cons_of_mem _ hq))
      have hruns : runRows rs = outs := by
        unfold mainList at hmain
        exact (List.cons.injEq _ _ _ _).mp hmain |>.2
      have hcons : mainList (r :: rs) = OutLine.header :: o :: outs := by
        unfold mainList
        rw [runRows_cons_ok ho, hruns]
      have hol : outs.length = rs.length := hfa.length_eq.symm
      refine ⟨o :: outs, ?_, hcons, ?_⟩
      · refine List.Forall₂.cons ⟨ho, ?_⟩ hfa
        obtain ⟨nr, lv, _, _, hshape⟩ := processRaw_ok_elim ho
        exact ⟨lonF nr, lv, hshape⟩
      · rw [hcons]
        simp [hol]

/-- C7 (witness): the two-row file [S2, S5] — S5 produces a NaN row — still
yields 2 + 1 output lines. -/
theorem C7_rowcount_witness : (mainList [w2raw, w5raw]).length = 3 := by
  obtain ⟨outs, _, _, hlen⟩ := C7_rowcount [w2raw, w5raw] (by
    intro q hq
    simp only [List.mem_cons, List.not_mem_nil, or_false] at hq
    rcases hq with rfl | rfl
    · rw [hw2_ok]
      rfl
    · rw [hw5_ok]
      rfl)
  exact hlen

theorem parseNums_ok_col {rr : RawRow} {nr : NumRow}
    (h : parseNums rr = .ok nr) :
    ∀ k : ℕ, 1 ≤ k → k ≤ 9 → ∃ v, colFloat rr k = .ok v := by
  have hall := parseNums_ok_elim h
  intro k h1 h9
  interval_cases k
  · exact ⟨_, hall.1⟩
  · exact ⟨_, hall.2.1⟩
  · exact ⟨_, hall.2.2.1⟩
  · exact ⟨_, hall.2.2.2.2.1⟩
  · exact ⟨_, hall.2.2.2.1⟩
  · exact ⟨_, hall.2.2.2.2.2.2.1⟩
  · exact ⟨_, hall.2.2.2.2.2.1⟩
  · exact ⟨_, hall.2.2.2.2.2.2.2.2⟩
  · exact ⟨_, hall.2.2.2.2.2.2.2.1⟩

/-- C8 (counterexample): row S6 has eleven fields — a wrong column count,
and its eleventh field is not even numeric — yet the script does not raise:
the row is processed successfully (the extra column is ignored). -/
theorem C8_counterexample :
    w6raw.fields.length = 11 ∧ (processRaw w6raw).isOk = true := by
  constructor
  · rfl
  · rw [show processRaw w6raw = processRaw w2raw from
      processRaw_append [⟨(r"junk"), none⟩] (by norm_num [w2fields]), hw2_ok]
    rfl

/-- C8 (amended): a row with fewer than ten columns (IndexError), or
non-numeric text in one of the numeric columns 1-9 (ValueError from
`float`), raises a fatal error that aborts the batch; columns beyond the
tenth are silently ignored rather than fatal. -/
theorem C8_malformed :
    (∀ rr : RawRow, rr.fields.length < 10 → processRaw rr = .error ()) ∧
    (∀ (rr : RawRow) (k : ℕ) (f : RawField), 1 ≤ k → k ≤ 9 →
      rr.fields.get? k = some f → f.val = none →
      processRaw rr = .error ()) ∧
    (∀ fs extra : List RawField, 10 ≤ fs.length →
      processRaw ⟨fs ++ extra⟩ = processRaw ⟨fs⟩) := by
  refine ⟨?_, ?_, fun fs extra h => processRaw_append extra h⟩
  · intro rr hlen
    cases hp : parseNums rr with
    | ok nr => exact absurd (parseNums_ok_length hp) (by omega)
    | error e => exact processRaw_error_of_parse hp
  · intro rr k f hk1 hk9 hget hval
    cases hp : parseNums rr with
    | error e => exact processRaw_error_of_parse hp
    | ok nr =>
        exfalso
        obtain ⟨v, hcf⟩ := parseNums_ok_col hp k hk1 hk9
        rcases colFloat_ok_iff.mp hcf with ⟨f', hg', hv'⟩
        rw [hget] at hg'
        cases hg'
        rw [hval] at hv'
        exact absurd hv' (by simp)

/-- C8 (witness): the two-field row S8 is fatal, and appending an extra
column to the ten fields of S2 leaves the computation unchanged. -/
theorem C8_malformed_witness :
    processRaw w8raw = .error () ∧
    processRaw ⟨w2fields ++ [⟨(r"junk"), none⟩]⟩ = processRaw ⟨w2fields⟩ :=
  ⟨C8_malformed.1 w8raw (by norm_num [w8raw]),
   C8_malformed.2.2 w2fields [⟨(r"junk"), none⟩] (by norm_num [w2fields])⟩

/-- C9: two raw rows that differ only in column 0 (the sample name) have the
same fate: both abort, or both emit rows with identical longitude and
latitude; the name reaches only the first field of the emitted row. -/
theorem C9_name_independent (f g : RawField) (rest : List RawField) :
    processRaw ⟨f :: rest⟩ =
      Except.map (renameOut f.text) (processRaw ⟨g :: rest⟩) := by
  cases hp : parseNums ⟨g :: rest⟩ with
  | error e =>
      have hpf : parseNums ⟨f :: rest⟩ = .error e := by
        rw [parseNums_cons_irrel f g rest, hp]
      rw [processRaw_error_of_parse hp, processRaw_error_of_parse hpf]
      rfl
  | ok nr =>
      have hpf : parseNums ⟨f :: rest⟩ = .ok nr := by
        rw [parseNums_cons_irrel f g rest, hp]
      cases hl : latE nr with
      | error e =>
          rw [processRaw_error_of_lat hp hl, processRaw_error_of_lat hpf hl]
          rfl
      | ok lv =>
          rw [processRaw_ok_of hp hl, processRaw_ok_of hpf hl]
          rfl

theorem exists_ok_of_isOk {rr : RawRow} (h : (processRaw rr).isOk = true) :
    ∃ o, processRaw rr = .ok o := by
  cases hq : processRaw rr with
  | error e =>
      rw [hq] at h
      exact absurd h (by simp [Except.isOk, Except.toBool])
  | ok o => exact ⟨o, rfl⟩

theorem runRows_until_err (pre : List RawRow) (bad : RawRow)
    (post : List RawRow) {e : Unit} (he : processRaw bad = .error e) :
    (∀ r ∈ pre, (processRaw r).isOk = true) →
    ∃ outs, List.Forall₂ (fun r o => processRaw r = .ok o) pre outs ∧
      runRows (pre ++ bad :: post) = outs := by
  induction pre with
  | nil =>
      intro _
      exact ⟨[], .nil, by rw [List.nil_append, runRows_cons_err he]⟩
  | cons r rs ih =>
      intro hpre
      obtain ⟨o, ho⟩ := exists_ok_of_isOk (hpre r (List.mem_cons_self r rs))
      obtain ⟨outs, hfa, hrun⟩ :=
        ih (fun q hq => hpre q (List.mem_cons_of_mem _ hq))
      refine ⟨o :: outs, List.Forall₂.cons ho hfa, ?_⟩
      rw [List.cons_append, runRows_cons_ok ho, hrun]

/-- C10: the header line precedes everything in the output by construction
(it is written at line 33, before the loop of lines 35-112 reads any row),
and when a fatal error aborts the batch at some row, the output is exactly
the header followed by the data rows of the rows processed before it —
nothing already written is rolled back. -/
theorem C10_header_first :
    (∀ rows : List RawRow, ∃ tl, mainList rows = OutLine.header :: tl) ∧
    (∀ (pre : List RawRow) (bad : RawRow) (post : List RawRow),
      (∀ r ∈ pre, (processRaw r).isOk = true) →
      (processRaw bad).isOk = false →
      ∃ outs, List.Forall₂ (fun r o => processRaw r = .ok o) pre outs ∧
        mainList (pre ++ bad :: post) = OutLine.header :: outs) := by
  constructor
  · intro rows
    exact ⟨runRows rows, rfl⟩
  · intro pre bad post hpre hbad
    obtain ⟨e, he⟩ : ∃ e, processRaw bad = .error e := by
      cases hb : processRaw bad with
      | error e2 => exact ⟨e2, rfl⟩
      | ok o =>
          rw [hb] at hbad
          exact absurd hbad (by simp [Except.isOk, Except.toBool])
    obtain ⟨outs, hfa, hrun⟩ := runRows_until_err pre bad post he hpre
    refine ⟨outs, hfa, ?_⟩
    unfold mainList
    rw [hrun]

/-- C10 (witness): with the file [S2, S8, S5], row S8 aborts the batch; the
output still starts with the header and keeps the already-written S2 row —
three input rows, two output lines. -/
theorem C10_header_first_witness :
    (mainList [w2raw, w8raw, w5raw]).length = 2 := by
  obtain ⟨outs, hfa, hmain⟩ :=
    C10_header_first.2 [w2raw] w8raw [w5raw]
      (by
        intro q hq
        simp only [List.mem_cons, List.not_mem_nil, or_false] at hq
        subst hq
        rw [hw2_ok]
        rfl)
      (by rw [hw8_err]; rfl)
  have hlen : outs.length = 1 := hfa.length_eq.symm
  rw [show ([w2raw] ++ w8raw :: [w5raw]) = [w2raw, w8raw, w5raw] from rfl]
    at hmain
  rw [hmain]
  simp [hlen]
